import Mathlib

/-!
Verification development for the llm-agent CLI repository.

The definitions below are a shallow embedding of the repository's core
modules — `src/tools/base.py` (tool registry, schema derivation, execution
contract), `src/core/memory.py` (conversation persistence) and
`src/core/agent.py` (the buffered and streaming orchestration loops).
Python dictionaries are modelled as association lists, Python `None` as an
explicit `Value.vnone` constructor, exceptions as `Except`/outcome sums,
and the SQLite store as an in-memory list of rows with `ORDER BY timestamp
DESC` rendered as an insertion sort on a `Nat` timestamp (ISO-8601 strings
compare lexicographically, which agrees with chronological order).
-/

namespace LlmAgent

/-- Python runtime values threaded through tool arguments, defaults, results
and turn metadata. `vnone` is Python `None`. -/
inductive Value where
  | vnone : Value
  | vbool (b : Bool) : Value
  | vint (n : Int) : Value
  | vstr (s : String) : Value
deriving DecidableEq, Repr

/-- `ToolCategory` from `src/tools/base.py`. -/
inductive ToolCategory where
  | search | computation | file_operations | data_analysis
  | web_scraping | communication | system | custom
deriving DecidableEq, Repr

/-- `ToolParameter` dataclass from `src/tools/base.py`.  `default` is a
`Value`; a stored Python `None` default is `Value.vnone` (the code writes
`default = None if required else param.default`). -/
structure ToolParameter where
  name : String
  type : String
  description : String
  required : Bool := true
  default : Value := .vnone
  enum_values : Option (List String) := none
deriving DecidableEq, Repr

/-- `ToolResult` dataclass from `src/tools/base.py`. -/
structure ToolResult where
  success : Bool
  data : Value := .vnone
  error : Option String := none
  metadata : List (String × Value) := []
deriving DecidableEq, Repr

/-- The `__origin__` of a `typing` construct, as far as the code
distinguishes it: `list`, `dict`, or anything else (`Union`, …). -/
inductive PyOrigin where
  | olist | odict | oother
deriving DecidableEq, Repr

/-- One element of a `typing` construct's `__args__` tuple, as far as the
`for arg in args` loop of `_extract_parameters` observes it: `type(None)`,
a class carrying `__name__`, or anything else (a nested generic alias is
modelled as not carrying `__name__`). -/
inductive PyArg where
  | noneType : PyArg
  | named (nm : String) : PyArg
  | nameless : PyArg
deriving DecidableEq, Repr

/-- The shape of a Python annotation as `BaseTool._extract_parameters`
observes it through `inspect`: absent (`inspect.Parameter.empty`),
`type(None)`, a plain class carrying `__name__`, an object with neither
`__origin__` nor `__name__`, or a `typing` construct carrying `__origin__`
and a (possibly empty) `__args__` tuple. -/
inductive PyAnn where
  | empty : PyAnn
  | noneType : PyAnn
  | named (nm : String) : PyAnn
  | nameless : PyAnn
  | generic (origin : PyOrigin) (args : List PyArg) : PyAnn
deriving DecidableEq, Repr

/-- A parameter's declared default: `inspect.Parameter.empty` or a value
(possibly Python `None`). -/
inductive PyDefault where
  | empty : PyDefault
  | value (v : Value) : PyDefault
deriving DecidableEq, Repr

/-- One parameter of a tool's `execute` signature as `inspect.signature`
reports it. -/
structure SigParam where
  name : String
  annot : PyAnn
  default : PyDefault := .empty
deriving DecidableEq, Repr

/-- The `type_mapping` dict of `BaseTool._extract_parameters`. -/
def type_mapping (s : String) : Option String :=
  if s = "int" then some "integer"
  else if s = "float" then some "number"
  else if s = "bool" then some "boolean"
  else if s = "str" then some "string"
  else if s = "list" then some "array"
  else if s = "dict" then some "object"
  else none

/-- The `for arg in args` loop of `_extract_parameters`: the first `Union`
argument that is not `type(None)` and carries `__name__`. -/
def firstNamedArg : List PyArg → Option String
  | [] => none
  | .noneType :: rest => firstNamedArg rest
  | .named nm :: _ => some nm
  | .nameless :: rest => firstNamedArg rest

/-- The `param_type` classification of `BaseTool._extract_parameters`:
`list`/`dict` origins map to `array`/`object`; other generics take the first
non-`None` named argument through `type_mapping` with a `"string"` fallback;
a plain class maps through `type_mapping` with its own raw `__name__` as the
fallback; everything else is `"string"`. -/
def classify : PyAnn → String
  | .empty => "string"
  | .generic .olist _ => "array"
  | .generic .odict _ => "object"
  | .generic _ [] => "string"
  | .generic _ args =>
      match firstNamedArg args with
      | some nm => (type_mapping nm).getD "string"
      | none => "string"
  | .named nm => (type_mapping nm).getD nm
  | .noneType => (type_mapping "NoneType").getD "NoneType"
  | .nameless => "string"

/-- `BaseTool._extract_parameters`: walks the `execute` signature, skips the
`kwargs` catch-all, classifies each annotation, and marks a parameter
required exactly when it has no declared default. -/
def extract_parameters (sig : List SigParam) : List ToolParameter :=
  (sig.filter (fun p => p.name ≠ "kwargs")).map fun p =>
    { name := p.name
      type := classify p.annot
      description := "Parameter " ++ p.name
      required := match p.default with | .empty => true | .value _ => false
      default := match p.default with | .empty => .vnone | .value v => v
      enum_values := none }

/-- Outcome of running a tool body: a `ToolResult`, or a raised exception
with its message. -/
inductive ExecOutcome where
  | ok (r : ToolResult) : ExecOutcome
  | exn (msg : String) : ExecOutcome

/-- `BaseTool` from `src/tools/base.py`: name, docstring description,
category, the `execute` signature the schema is derived from, and the
`execute` body itself. -/
structure BaseTool where
  name : String
  description : String
  category : ToolCategory := .custom
  sig : List SigParam
  run : List (String × Value) → ExecOutcome

/-- `self.parameters`, computed from the signature in `BaseTool.__init__`. -/
def BaseTool.parameters (t : BaseTool) : List ToolParameter :=
  extract_parameters t.sig

/-- One property of the serialized OpenAI function schema. -/
structure PropertySchema where
  type : String
  description : String
  enum : Option (List String) := none
deriving DecidableEq, Repr

/-- The serialized tool schema `BaseTool.to_function_schema` builds.
`required = none` models the `"required"` key being absent. -/
structure FunctionSchema where
  name : String
  description : String
  properties : List (String × PropertySchema)
  required : Option (List String)
deriving DecidableEq, Repr

/-- `BaseTool.to_function_schema`: serializes every parameter, collecting
the names of required ones; the `"required"` key is included only when that
list is non-empty. -/
def to_function_schema (t : BaseTool) : FunctionSchema :=
  let props := t.parameters.map fun p =>
    (p.name, { type := p.type, description := p.description
               enum := p.enum_values : PropertySchema })
  let req := (t.parameters.filter (·.required)).map (·.name)
  { name := t.name
    description := t.description
    properties := props
    required := if req.isEmpty then none else some req }

/-- `BaseTool.validate_parameters`: walks the declared parameters in order;
a supplied argument is copied through, a missing required parameter raises
`ValueError`, a missing optional parameter gets its default exactly when
that default `is not None`.  Arguments whose names match no declared
parameter are never looked at. -/
def validate_parameters (params : List ToolParameter)
    (kwargs : List (String × Value)) : Except String (List (String × Value)) :=
  match params with
  | [] => .ok []
  | p :: ps =>
    match kwargs.lookup p.name with
    | some v =>
        match validate_parameters ps kwargs with
        | .ok rest => .ok ((p.name, v) :: rest)
        | .error m => .error m
    | none =>
        if p.required then
          .error ("Required parameter '" ++ p.name ++ "' is missing")
        else if p.default ≠ .vnone then
          match validate_parameters ps kwargs with
          | .ok rest => .ok ((p.name, p.default) :: rest)
          | .error m => .error m
        else
          validate_parameters ps kwargs

/-- `ToolRegistry` from `src/tools/base.py`: a name-keyed tool dict
(association list in declaration order, Python-dict insertion semantics)
and the category index. -/
structure ToolRegistry where
  tools : List (String × BaseTool) := []
  categories : ToolCategory → List String := fun _ => []

/-- Python dict assignment `d[k] = v`: replaces the value at an existing
key in place, otherwise appends. -/
def dictInsert (l : List (String × BaseTool)) (k : String) (t : BaseTool) :
    List (String × BaseTool) :=
  match l with
  | [] => [(k, t)]
  | (k', t') :: rest =>
      if k' = k then (k, t) :: rest else (k', t') :: dictInsert rest k t

/-- `ToolRegistry.register`: `self.tools[tool.name] = tool` plus an
unconditional append to the category index.  There is no presence check. -/
def register (reg : ToolRegistry) (t : BaseTool) : ToolRegistry :=
  { tools := dictInsert reg.tools t.name t
    categories := fun c =>
      if c = t.category then reg.categories c ++ [t.name] else reg.categories c }

/-- `ToolRegistry.get_tool`: `self.tools.get(name)`. -/
def get_tool (reg : ToolRegistry) (name : String) : Option BaseTool :=
  reg.tools.lookup name

/-- `ToolRegistry.execute_tool`: unknown name gives a failure result;
`validate_parameters` raising (`ValueError`) or the tool body raising is
caught by the `except Exception` arm and converted into a failure result
whose error is the prefixed exception text. -/
def execute_tool (reg : ToolRegistry) (name : String)
    (kwargs : List (String × Value)) : ToolResult :=
  match get_tool reg name with
  | none => { success := false, error := some ("Tool '" ++ name ++ "' not found") }
  | some tool =>
    match validate_parameters tool.parameters kwargs with
    | .error m => { success := false, error := some ("Tool execution failed: " ++ m) }
    | .ok validated =>
      match tool.run validated with
      | .ok r => r
      | .exn m => { success := false, error := some ("Tool execution failed: " ++ m) }

/-- `Message` dataclass from `src/core/llm.py`.  `function_call` is the
ad-hoc dict `{name, arguments}` with the arguments already serialized. -/
structure Message where
  role : String
  content : String
  name : Option String := none
  function_call : Option (String × String) := none
deriving DecidableEq, Repr

/-- `FunctionCall` dataclass from `src/core/llm.py`. -/
structure FunctionCall where
  name : String
  arguments : List (String × Value)
deriving DecidableEq, Repr

/-- Models `json.dumps` on the value fragment used by the loop (quotes are
not escaped; no claim inspects these strings beyond equality). -/
def dumpValue : Value → String
  | .vnone => "null"
  | .vbool b => if b then "true" else "false"
  | .vint n => toString n
  | .vstr s => "\"" ++ s ++ "\""

/-- Models `json.dumps` on a string-keyed dict of values. -/
def dumpPairs (l : List (String × Value)) : String :=
  "\x7b" ++ String.intercalate ", "
    (l.map fun kv => "\"" ++ kv.1 ++ "\": " ++ dumpValue kv.2) ++ "\x7d"

/-- Models `json.dumps(tool_result.to_dict())`. -/
def dumpToolResult (r : ToolResult) : String :=
  "\x7b\"success\": " ++ (if r.success then "true" else "false")
    ++ ", \"data\": " ++ dumpValue r.data
    ++ ", \"error\": " ++ (match r.error with | none => "null" | some e => "\"" ++ e ++ "\"")
    ++ ", \"metadata\": " ++ dumpPairs r.metadata ++ "\x7d"

/-- `settings.agent_name` default from `src/config/settings.py`. -/
def agent_name : String := "LLM-Agent"

/-- `MemoryManager._get_system_prompt` from `src/core/memory.py`. -/
def get_system_prompt : String :=
  "You are " ++ agent_name ++ ", an advanced AI assistant with access to various tools.

Your capabilities include:
- Web search and information retrieval
- Mathematical calculations and code execution
- File operations and data analysis
- Data visualization and processing

Guidelines:
1. Always be helpful, accurate, and concise
2. Use tools when they can provide better or more current information
3. Explain your reasoning when using tools
4. If you're unsure about something, say so
5. Maintain context from previous messages in the conversation

Current session context: You have access to conversation history and can reference previous interactions."

/-- `ConversationTurn` dataclass from `src/core/memory.py`, doubling as one
row of the `conversations` table.  The SQLite autoincrement id is not
modelled (no claim reads it); the ISO-8601 timestamp string is modelled as
a `Nat`, lexicographic order on ISO strings being chronological order.
`tools_used` and `metadata` stand for their JSON round-trip through
`json.dumps`/`json.loads`, which is the identity on these fields. -/
structure ConversationTurn where
  session_id : String
  timestamp : Nat
  user_message : String
  assistant_message : String
  tools_used : List String := []
  metadata : List (String × Value) := []
deriving DecidableEq, Repr

/-- The persistent store: the rows of the `conversations` table in
insertion order. -/
abbrev MemoryDb := List ConversationTurn

/-- `MemoryManager.save_turn`: one `INSERT`, append-only. -/
def save_turn (db : MemoryDb) (turn : ConversationTurn) : MemoryDb :=
  db ++ [turn]

/-- `ORDER BY timestamp DESC` as a relation: newer (or equal) first. -/
def tsDesc (a b : ConversationTurn) : Prop := b.timestamp ≤ a.timestamp

instance : DecidableRel tsDesc := fun a b => Nat.decLe b.timestamp a.timestamp

instance : IsTotal ConversationTurn tsDesc :=
  ⟨fun a b => (Nat.le_total b.timestamp a.timestamp).elim Or.inl Or.inr⟩

instance : IsTrans ConversationTurn tsDesc :=
  ⟨fun _ _ _ h1 h2 => Nat.le_trans h2 h1⟩

/-- `WHERE session_id = ?` over the table. -/
def session_rows (db : MemoryDb) (session_id : String) : List ConversationTurn :=
  db.filter (fun r => r.session_id == session_id)

/-- The rows `SELECT … WHERE session_id = ? ORDER BY timestamp DESC LIMIT ?`
returns. -/
def recent_rows (db : MemoryDb) (session_id : String) (limit : Nat) :
    List ConversationTurn :=
  (List.insertionSort tsDesc (session_rows db session_id)).take limit

/-- `MemoryManager.get_conversation_history`: optional system message, then
the fetched rows in reverse (oldest first), each row contributing a
user/assistant `Message` pair. -/
def get_conversation_history (db : MemoryDb) (session_id : String)
    (limit : Nat) (include_system : Bool := true) : List Message :=
  (if include_system then [{ role := "system", content := get_system_prompt }] else [])
    ++ (recent_rows db session_id limit).reverse.flatMap fun r =>
        [{ role := "user", content := r.user_message },
         { role := "assistant", content := r.assistant_message }]

/-- Whether `haystack LIKE '%needle%'` holds for a wildcard-free needle:
substring containment.  (SQLite LIKE is additionally ASCII
case-insensitive, which only widens the match set; the claims below only
rely on the direction "a stored substring matches".) -/
def likeMatch (needle haystack : String) : Bool :=
  haystack.data.tails.any (fun t => needle.data.isPrefixOf t)

/-- The `WHERE` clause of `MemoryManager.search_conversations`. -/
def search_match (q : String) (session_id : Option String)
    (r : ConversationTurn) : Bool :=
  (likeMatch q r.user_message || likeMatch q r.assistant_message)
    && (match session_id with
        | none => true
        | some sid => r.session_id == sid)

/-- `MemoryManager.search_conversations`: substring filter, optional
session scope, newest first, `LIMIT` rows; each row is parsed back into a
`ConversationTurn`. -/
def search_conversations (db : MemoryDb) (q : String)
    (session_id : Option String := none) (limit : Nat := 10) :
    List ConversationTurn :=
  (List.insertionSort tsDesc (db.filter (search_match q session_id))).take limit

/-- What one `llm.chat_completion` round trip produces for the loop: a text
answer, a `FunctionCall`, or a raised exception with its message. -/
inductive LLMOutcome where
  | text (s : String) : LLMOutcome
  | call (fc : FunctionCall) : LLMOutcome
  | exn (msg : String) : LLMOutcome

/-- A backend in buffered mode: a deterministic function of the message
history and the advertised schemas (the loop never varies temperature or
max tokens, so those are dropped). -/
abbrev Provider := List Message → Option (List FunctionSchema) → LLMOutcome

/-- A backend's `stream_completion`: the finite fragment sequence it yields
for a message history (the loop calls it without schemas). -/
abbrev StreamProvider := List Message → List String

/-- `ToolRegistry.to_function_schemas`. -/
def to_function_schemas (reg : ToolRegistry) : List FunctionSchema :=
  reg.tools.map fun kv => to_function_schema kv.2

/-- `functions=function_schemas if function_schemas else None` in
`Agent._generate_response` / `Agent._stream_response`. -/
def functionsArg (reg : ToolRegistry) : Option (List FunctionSchema) :=
  let s := to_function_schemas reg
  if s.isEmpty then none else some s

/-- The assistant message recording a function call, as the loop appends
it (empty content, the serialized call in `function_call`). -/
def tool_call_message (fc : FunctionCall) : Message :=
  { role := "assistant", content := ""
    function_call := some (fc.name, dumpPairs fc.arguments) }

/-- The function-role message carrying the serialized `ToolResult`. -/
def tool_result_message (fc : FunctionCall) (tr : ToolResult) : Message :=
  { role := "function", name := some fc.name, content := dumpToolResult tr }

/-- `max_iterations = 5` in both loops of `src/core/agent.py`. -/
def max_iterations : Nat := 5

/-- The fixed apology the buffered loop's `while…else` arm produces when
the iteration cap is exhausted. -/
def exhaustion_message : String :=
  "I apologize, but I reached the maximum number of tool calls. Please try rephrasing your request."

/-- How one buffered orchestration loop ends: with a final answer, or with
an exception escaping `_generate_response`. -/
inductive LoopOutcome where
  | answer (s : String) : LoopOutcome
  | errored (msg : String) : LoopOutcome
deriving DecidableEq, Repr

/-- The `while iteration < max_iterations` loop of
`Agent._generate_response`, structurally recursive on the remaining
iteration budget.  Returns the outcome, `tools_used` in invocation order,
and the final `iteration` counter (the number of `chat_completion` calls
made; on the exhausted path it stays at the cap). -/
def runLoop (P : Provider) (reg : ToolRegistry) :
    List Message → List String → Nat → Nat → LoopOutcome × List String × Nat
  | _, tools, iteration, 0 => (.answer exhaustion_message, tools, iteration)
  | msgs, tools, iteration, Nat.succ rem =>
      match P msgs (functionsArg reg) with
      | .exn m => (.errored m, tools, iteration + 1)
      | .text s => (.answer s, tools, iteration + 1)
      | .call fc =>
          let tr := execute_tool reg fc.name fc.arguments
          runLoop P reg
            (msgs ++ [tool_call_message fc, tool_result_message fc tr])
            (tools ++ [fc.name]) (iteration + 1) rem

/-- The names the provider asks to invoke along the run, in order: the
trace that `tools_used` records. -/
def call_names (P : Provider) (reg : ToolRegistry) :
    List Message → Nat → List String
  | _, 0 => []
  | msgs, Nat.succ rem =>
      match P msgs (functionsArg reg) with
      | .call fc =>
          fc.name :: call_names P reg
            (msgs ++ [tool_call_message fc,
              tool_result_message fc (execute_tool reg fc.name fc.arguments)]) rem
      | _ => []

/-- `Agent._generate_response`: run the loop, then persist exactly one
`ConversationTurn` — unless an exception escaped the loop, in which case
nothing is persisted and the exception propagates to the caller. -/
def generate_response (P : Provider) (reg : ToolRegistry)
    (history : List Message) (session_id original_message : String)
    (ts : Nat) (db : MemoryDb) : Except String (String × MemoryDb) :=
  match runLoop P reg history [] 0 max_iterations with
  | (.errored m, _, _) => .error m
  | (.answer s, tools, iteration) =>
      .ok (s, save_turn db
        { session_id := session_id, timestamp := ts
          user_message := original_message, assistant_message := s
          tools_used := tools
          metadata := [("iterations", Value.vint iteration)] })

/-- The working history a pass is seeded with: the 10 most recent turns
behind the system prompt, then the new user message. -/
def seeded_history (db : MemoryDb) (session_id msg : String) : List Message :=
  get_conversation_history db session_id 10 true
    ++ [{ role := "user", content := msg }]

/-- `Agent.process_message_sync`: seeds the working history, runs the
buffered loop, and converts any escaped exception into
"I encountered an error: …" — leaving the store untouched on that path. -/
def process_message_sync (P : Provider) (reg : ToolRegistry) (db : MemoryDb)
    (session_id msg : String) (ts : Nat) : String × MemoryDb :=
  match generate_response P reg (seeded_history db session_id msg)
      session_id msg ts db with
  | .ok (resp, db2) => (resp, db2)
  | .error m => ("I encountered an error: " ++ m, db)

/-- The `"\n🔧 Using tool: …"` notification `_stream_response` yields
before dispatching a tool. -/
def tool_notice (fc : FunctionCall) : String :=
  "\n🔧 Using tool: " ++ fc.name ++ "\n"

/-- The result summary `_stream_response` yields after a tool ran
(an f-string renders a `None` error as "None"). -/
def tool_result_notice (tr : ToolResult) : String :=
  if tr.success then "✅ Tool completed successfully\n\n"
  else "❌ Tool failed: "
    ++ (match tr.error with | some e => e | none => "None") ++ "\n\n"

/-- How one streaming pass ends: all yielded fragments, the
final-answer fragments (`final_response_parts`), `tools_used` and the
iteration counter — or the fragments yielded before an exception escaped. -/
inductive StreamOutcome where
  | done (yielded parts tools : List String) (iteration : Nat) : StreamOutcome
  | errored (yielded : List String) (msg : String) : StreamOutcome
deriving DecidableEq, Repr

/-- The `while` loop of `Agent._stream_response`.  A tool iteration yields
its two notifications (which are never added to `final_response_parts`);
the final text iteration re-queries the backend through
`stream_completion` and both yields and collects every fragment; cap
exhaustion ends the loop with no further yield. -/
def streamLoop (P : Provider) (S : StreamProvider) (reg : ToolRegistry) :
    List Message → List String → Nat → Nat → StreamOutcome
  | _, tools, iteration, 0 => .done [] [] tools iteration
  | msgs, tools, iteration, Nat.succ rem =>
      match P msgs (functionsArg reg) with
      | .exn m => .errored [] m
      | .text _ =>
          let parts := S msgs
          .done parts parts tools (iteration + 1)
      | .call fc =>
          let tr := execute_tool reg fc.name fc.arguments
          let pre := [tool_notice fc, tool_result_notice tr]
          match streamLoop P S reg
              (msgs ++ [tool_call_message fc, tool_result_message fc tr])
              (tools ++ [fc.name]) (iteration + 1) rem with
          | .done y p t i => .done (pre ++ y) p t i
          | .errored y m => .errored (pre ++ y) m

/-- `Agent.process_message_stream` composed with `Agent._stream_response`:
returns every yielded fragment and the resulting store.  On normal
completion one turn is persisted whose `assistant_message` is the
concatenation of `final_response_parts` alone; an escaped exception is
caught and yielded as a final "I encountered an error: …" fragment, with
nothing persisted. -/
def process_message_stream (P : Provider) (S : StreamProvider)
    (reg : ToolRegistry) (db : MemoryDb) (session_id msg : String)
    (ts : Nat) : List String × MemoryDb :=
  match streamLoop P S reg (seeded_history db session_id msg) [] 0 max_iterations with
  | .done yielded parts tools iteration =>
      (yielded, save_turn db
        { session_id := session_id, timestamp := ts
          user_message := msg, assistant_message := String.join parts
          tools_used := tools
          metadata := [("iterations", Value.vint iteration),
                       ("streamed", Value.vbool true)] })
  | .errored yielded m => (yielded ++ ["I encountered an error: " ++ m], db)

/-- The notification fragments a run of tool-request iterations yields, in
order: the trace of `_stream_response`'s progress output. -/
def stream_notices (P : Provider) (reg : ToolRegistry) :
    List Message → Nat → List String
  | _, 0 => []
  | msgs, Nat.succ rem =>
      match P msgs (functionsArg reg) with
      | .call fc =>
          let tr := execute_tool reg fc.name fc.arguments
          tool_notice fc :: tool_result_notice tr ::
            stream_notices P reg
              (msgs ++ [tool_call_message fc, tool_result_message fc tr]) rem
      | _ => []

/-! ### The spec's reading of the required-parameter derivation (for C7)

The spec says the required list excludes optional-typed parameters; the
code marks required purely by the absence of a default.  The two
definitions below render the spec's words so the two derivations can be
compared. -/

/-- Modelled from the spec: whether a declared annotation is
"optional-typed", i.e. a `Union`/`Optional` construct admitting `None`. -/
def isOptionalTyped : PyAnn → Bool
  | .generic .oother args => args.any (fun a => a == .noneType)
  | _ => false

/-- Modelled from the spec: "the required-parameter list is exactly the
declared parameters that have no default and are not optional-typed". -/
def required_per_claim (sig : List SigParam) : List String :=
  ((sig.filter (fun p => p.name ≠ "kwargs")).filter fun p =>
      (match p.default with | .empty => true | .value _ => false)
        && !isOptionalTyped p.annot).map (·.name)

/-! ### Concrete fixtures used by witnesses and counterexamples -/

/-- A registered no-op tool with no declared parameters. -/
def noop_tool : BaseTool :=
  { name := "noop", description := "Does nothing."
    sig := [], run := fun _ => .ok { success := true } }

/-- A tool with one required parameter `x` and one defaulted parameter `y`. -/
def echo_tool : BaseTool :=
  { name := "echo", description := "Echoes its arguments."
    sig := [{ name := "x", annot := .named "str" },
            { name := "y", annot := .named "int", default := .value (.vint 7) }]
    run := fun args => .ok { success := true, data := .vstr (dumpPairs args) } }

/-- A tool whose body always raises. -/
def raising_tool : BaseTool :=
  { name := "boomer", description := "Always raises."
    sig := [], run := fun _ => .exn "kaboom" }

/-- A tool whose single parameter is `Optional[int]`-annotated with no
default (exercises the C7 discrepancy). -/
def opt_tool : BaseTool :=
  { name := "opt", description := "Optional-typed required parameter."
    sig := [{ name := "x", annot := .generic .oother [.named "int", .noneType] }]
    run := fun _ => .ok { success := true } }

/-- A tool whose single parameter is annotated with a class outside the
type mapping (exercises the C9 fallback). -/
def path_tool : BaseTool :=
  { name := "pathy", description := "Custom-class annotation."
    sig := [{ name := "p", annot := .named "Path" }]
    run := fun _ => .ok { success := true } }

/-- A registry holding the no-op tool, the echo tool and the raising tool. -/
def reg0 : ToolRegistry :=
  register (register (register {} noop_tool) echo_tool) raising_tool

/-- First of two distinct tools sharing the name "dup". -/
def dup_tool1 : BaseTool :=
  { name := "dup", description := "first", sig := []
    run := fun _ => .ok { success := true } }

/-- Second of two distinct tools sharing the name "dup". -/
def dup_tool2 : BaseTool :=
  { name := "dup", description := "second", sig := []
    run := fun _ => .ok { success := false } }

/-- A provider stub that always requests the no-op tool. -/
def alwaysCallProvider : Provider := fun _ _ => .call { name := "noop", arguments := [] }

/-- A provider stub that always raises. -/
def raisingProvider : Provider := fun _ _ => .exn "boom"

/-- A provider stub that immediately answers in text. -/
def textProvider : Provider := fun _ _ => .text "All done."

/-- A streaming backend that yields the fragments `["Hel", "lo"]`. -/
def helloStream : StreamProvider := fun _ => ["Hel", "lo"]

/-- A concrete persisted turn. -/
def sample_turn : ConversationTurn :=
  { session_id := "s", timestamp := 5
    user_message := "hello world", assistant_message := "hi there"
    tools_used := ["calculator"], metadata := [] }

/-! ## Theorems -/

/-- `List.lookup` after a Python-dict assignment finds the assigned tool. -/
theorem lookup_dictInsert (l : List (String × BaseTool)) (k : String) (t : BaseTool) :
    (dictInsert l k t).lookup k = some t := by
  induction l with
  | nil => simp [dictInsert, List.lookup]
  | cons hd tl ih =>
      obtain ⟨k', t'⟩ := hd
      by_cases h : k' = k
      · subst h
        simp [dictInsert, List.lookup]
      · simp only [dictInsert, if_neg h, List.lookup]
        have : (k == k') = false := by
          exact beq_eq_false_iff_ne.mpr (fun hk => h hk.symm)
        simp [this, ih]

/-- A Python-dict assignment leaves the key sequence unchanged when the key
is present and appends it otherwise. -/
theorem keys_dictInsert (l : List (String × BaseTool)) (k : String) (t : BaseTool) :
    (dictInsert l k t).map Prod.fst
      = (if k ∈ l.map Prod.fst then l.map Prod.fst else l.map Prod.fst ++ [k]) := by
  induction l with
  | nil => simp [dictInsert]
  | cons hd tl ih =>
      obtain ⟨k', t'⟩ := hd
      by_cases h : k' = k
      · subst h
        simp [dictInsert]
      · simp only [dictInsert, if_neg h, List.map_cons]
        rw [ih]
        by_cases hm : k ∈ tl.map Prod.fst
        · simp [hm, Ne.symm h]
        · simp [hm, Ne.symm h]

/-- C6 counterexample: registering a second tool under the already-taken
name "dup" does not fail in any caller-visible way — the call returns
normally and the lookup afterwards yields the second tool, so the first
registration was silently overwritten. -/
theorem register_duplicate_overwrites_cex :
    get_tool (register (register {} dup_tool1) dup_tool2) "dup" = some dup_tool2
      ∧ dup_tool2 ≠ dup_tool1 := by
  refine ⟨rfl, fun h => ?_⟩
  have hd := congrArg BaseTool.description h
  simp [dup_tool1, dup_tool2] at hd

/-- C6 amended: `register` never fails; registering a tool whose name is
already present silently replaces the existing registration in place (the
registry's name sequence is unchanged), a fresh name is appended, and the
category index gains the name unconditionally. -/
theorem register_amended (reg : ToolRegistry) (t : BaseTool) :
    get_tool (register reg t) t.name = some t
    ∧ (register reg t).tools.map Prod.fst
        = (if t.name ∈ reg.tools.map Prod.fst
            then reg.tools.map Prod.fst
            else reg.tools.map Prod.fst ++ [t.name])
    ∧ (register reg t).categories t.category
        = reg.categories t.category ++ [t.name] := by
  refine ⟨lookup_dictInsert _ _ _, keys_dictInsert _ _ _, ?_⟩
  simp [register]

/-- The extracted required names are exactly the non-`kwargs` signature
parameters without a declared default, in order. -/
theorem requiredNames_extract (sig : List SigParam) :
    ((extract_parameters sig).filter (·.required)).map (·.name)
      = ((sig.filter fun p => p.name ≠ "kwargs").filter fun p =>
          (match p.default with | .empty => true | .value _ => false)).map (·.name) := by
  induction sig with
  | nil => rfl
  | cons p ps ih =>
      by_cases hk : p.name = "kwargs"
      · simp only [extract_parameters, List.filter_cons] at *
        simp [hk] at *
        exact ih
      · cases hd : p.default with
        | empty =>
            simp only [extract_parameters, List.filter_cons] at *
            simp [hk, hd] at *
            exact ih
        | value v =>
            simp only [extract_parameters, List.filter_cons] at *
            simp [hk, hd] at *
            exact ih

/-- A parameter extracted from the signature is required exactly when its
signature entry has no default. -/
theorem mem_extract_required (sig : List SigParam) (p : ToolParameter)
    (hp : p ∈ extract_parameters sig) :
    ∃ q ∈ sig, q.name ≠ "kwargs" ∧ p.name = q.name
      ∧ (p.required = (match q.default with | .empty => true | .value _ => false)) := by
  unfold extract_parameters at hp
  obtain ⟨q, hq, rfl⟩ := List.mem_map.mp hp
  obtain ⟨hqs, hqk⟩ := List.mem_filter.mp hq
  refine ⟨q, hqs, ?_, rfl, rfl⟩
  simpa using hqk

/-- C7 counterexample: the parameter `x : Optional[int]` of `opt_tool` has
no default, so the code marks it required and serializes
`required = ["x"]`; the claim's reading (no default **and** not
optional-typed) excludes it, demanding an absent `required` key. -/
theorem required_list_cex :
    (to_function_schema opt_tool).required = some ["x"]
      ∧ required_per_claim opt_tool.sig = []
      ∧ isOptionalTyped (PyAnn.generic .oother [.named "int", .noneType]) = true :=
  ⟨rfl, rfl, rfl⟩

/-- A non-`kwargs` signature entry contributes one extracted parameter
with its name and the no-default required flag. -/
theorem extract_mem_of_sig (sig : List SigParam) (q : SigParam)
    (hq : q ∈ sig) (hk : q.name ≠ "kwargs") :
    ∃ p ∈ extract_parameters sig, p.name = q.name
      ∧ p.required = (match q.default with | .empty => true | .value _ => false) := by
  unfold extract_parameters
  exact ⟨_, List.mem_map_of_mem _ (List.mem_filter.mpr ⟨hq, by simpa using hk⟩), rfl, rfl⟩

/-- C7 amended: the derived required list is exactly the declared
(non-`kwargs`) parameters that have no default — optional typing does not
exempt a parameter — and the serialized schema carries the `required` key
iff at least one declared parameter lacks a default. -/
theorem required_list_amended (t : BaseTool) :
    (((t.parameters.filter (·.required)).map (·.name))
        = ((t.sig.filter fun p => p.name ≠ "kwargs").filter fun p =>
            (match p.default with | .empty => true | .value _ => false)).map (·.name))
    ∧ ((to_function_schema t).required = none ↔
        ∀ q ∈ t.sig, q.name ≠ "kwargs" → q.default ≠ .empty)
    ∧ (∀ rs, (to_function_schema t).required = some rs →
        rs ≠ [] ∧ rs = (t.parameters.filter (·.required)).map (·.name)) := by
  have hreq : (to_function_schema t).required
      = (if ((t.parameters.filter (·.required)).map (·.name)).isEmpty then none
         else some ((t.parameters.filter (·.required)).map (·.name))) := rfl
  refine ⟨requiredNames_extract t.sig, ?_, ?_⟩
  · rw [hreq]
    constructor
    · intro h q hq hk hd
      by_cases hemp : ((t.parameters.filter (·.required)).map (·.name)).isEmpty
      · obtain ⟨p, hp, hpn, hpr⟩ := extract_mem_of_sig t.sig q hq hk
        rw [hd] at hpr
        have hmem : p.name ∈ (t.parameters.filter (·.required)).map (·.name) :=
          List.mem_map_of_mem _ (List.mem_filter.mpr ⟨hp, by simp [hpr]⟩)
        rw [List.isEmpty_iff] at hemp
        rw [hemp] at hmem
        exact List.not_mem_nil _ hmem
      · rw [if_neg hemp] at h
        exact absurd h (by simp)
    · intro hall
      by_cases hemp : ((t.parameters.filter (·.required)).map (·.name)).isEmpty
      · rw [if_pos hemp]
      · exfalso
        rw [List.isEmpty_iff] at hemp
        obtain ⟨nm, hnm⟩ := List.exists_mem_of_ne_nil _ hemp
        obtain ⟨p, hp, rfl⟩ := List.mem_map.mp hnm
        obtain ⟨hpm, hpr⟩ := List.mem_filter.mp hp
        obtain ⟨q, hqs, hqk, _, hrf⟩ := mem_extract_required t.sig p hpm
        have hne := hall q hqs hqk
        cases hdq : q.default with
        | empty => exact hne hdq
        | value v =>
            rw [hdq] at hrf
            simp only at hrf
            rw [hrf] at hpr
            simp at hpr
  · intro rs h
    rw [hreq] at h
    by_cases hemp : ((t.parameters.filter (·.required)).map (·.name)).isEmpty
    · rw [if_pos hemp] at h
      exact absurd h (by simp)
    · rw [if_neg hemp] at h
      cases h
      exact ⟨by simpa [List.isEmpty_iff] using hemp, rfl⟩

/-- C9 counterexample: the parameter `p : Path` of `path_tool` carries a
class annotation outside the type mapping; the code keeps the raw type
name "Path" as the semantic type instead of the claimed default
"string". -/
theorem classify_fallback_cex :
    (extract_parameters path_tool.sig).map (·.type) = ["Path"]
      ∧ type_mapping "Path" = none
      ∧ ("Path" : String) ≠ "string" :=
  ⟨rfl, rfl, by decide⟩

/-- C9 amended: classification is a pure function of the declared
annotation — `list`/`dict` origins map to array/object, a `Union` is
unwrapped to its first non-`None` named alternative with a "string"
fallback, a missing or nameless annotation defaults to "string" — but a
plain class annotation outside the type mapping keeps its raw `__name__`
rather than defaulting to "string". -/
theorem classify_amended (nm : String) (args : List PyArg) :
    classify .empty = "string"
    ∧ classify .nameless = "string"
    ∧ classify (.generic .olist args) = "array"
    ∧ classify (.generic .odict args) = "object"
    ∧ (args ≠ [] → firstNamedArg args = some nm →
        classify (.generic .oother args) = (type_mapping nm).getD "string")
    ∧ (args ≠ [] → firstNamedArg args = none →
        classify (.generic .oother args) = "string")
    ∧ classify (.generic .oother []) = "string"
    ∧ (type_mapping nm = none → classify (.named nm) = nm)
    ∧ (∀ s, type_mapping nm = some s → classify (.named nm) = s) := by
  refine ⟨rfl, rfl, ?_, ?_, ?_, ?_, rfl, ?_, ?_⟩
  · cases args <;> rfl
  · cases args <;> rfl
  · intro hne hfst
    cases args with
    | nil => exact absurd rfl hne
    | cons a l => simp [classify, hfst]
  · intro hne hfst
    cases args with
    | nil => exact absurd rfl hne
    | cons a l => simp [classify, hfst]
  · intro h
    simp [classify, h]
  · intro s h
    simp [classify, h]

/-- A lookup over an association list none of whose keys is `k` misses. -/
theorem lookup_eq_none_of_no_key (l : List (String × Value)) (k : String)
    (h : ∀ kv ∈ l, k ≠ kv.1) : l.lookup k = none := by
  induction l with
  | nil => rfl
  | cons hd tl ih =>
      have hne : (k == hd.1) = false :=
        beq_eq_false_iff_ne.mpr (h hd (List.mem_cons_self hd tl))
      simp only [List.lookup, hne]
      exact ih fun kv hkv => h kv (List.mem_cons_of_mem hd hkv)

/-- Lookup distributes over append: the left list wins. -/
theorem lookup_append_or (l1 l2 : List (String × Value)) (k : String) :
    (l1 ++ l2).lookup k = (l1.lookup k).or (l2.lookup k) := by
  induction l1 with
  | nil => rfl
  | cons hd tl ih =>
      cases hbe : (k == hd.1) with
      | true => simp [List.lookup, hbe]
      | false => simp only [List.cons_append, List.lookup, hbe, List.append_eq, ih]

/-- If some required parameter is absent from the supplied arguments,
validation raises (`ValueError` in the source). -/
theorem validate_error_of_missing_required (params : List ToolParameter)
    (kwargs : List (String × Value))
    (h : ∃ p ∈ params, p.required = true ∧ kwargs.lookup p.name = none) :
    ∃ m, validate_parameters params kwargs = .error m := by
  induction params with
  | nil =>
      obtain ⟨p, hp, _⟩ := h
      exact absurd hp (List.not_mem_nil p)
  | cons q ps ih =>
      obtain ⟨p, hp, hreq, hlook⟩ := h
      rcases List.mem_cons.mp hp with rfl | hp'
      · exact ⟨"Required parameter '" ++ p.name ++ "' is missing",
          by simp [validate_parameters, hlook, hreq]⟩
      · cases hq : kwargs.lookup q.name with
        | some v =>
            obtain ⟨m, hm⟩ := ih ⟨p, hp', hreq, hlook⟩
            exact ⟨m, by simp [validate_parameters, hq, hm]⟩
        | none =>
            by_cases hr : q.required = true
            · exact ⟨"Required parameter '" ++ q.name ++ "' is missing",
                by simp [validate_parameters, hq, hr]⟩
            · obtain ⟨m, hm⟩ := ih ⟨p, hp', hreq, hlook⟩
              by_cases hdef : q.default = Value.vnone
              · exact ⟨m, by simp [validate_parameters, hq, hr, hdef, hm]⟩
              · exact ⟨m, by simp [validate_parameters, hq, hr, hdef, hm]⟩

/-- Every validated binding is named after a declared parameter: undeclared
arguments are never forwarded to the tool body. -/
theorem validate_ok_keys (params : List ToolParameter)
    (kwargs : List (String × Value)) (v : List (String × Value))
    (hok : validate_parameters params kwargs = .ok v) :
    ∀ kv ∈ v, ∃ p ∈ params, kv.1 = p.name := by
  induction params generalizing v with
  | nil =>
      cases hok
      intro kv hkv
      exact absurd hkv (List.not_mem_nil kv)
  | cons q ps ih =>
      intro kv hkv
      simp only [validate_parameters] at hok
      cases hq : kwargs.lookup q.name with
      | some w =>
          rw [hq] at hok
          cases hrec : validate_parameters ps kwargs with
          | ok rest =>
              rw [hrec] at hok
              cases hok
              rcases List.mem_cons.mp hkv with rfl | hkv'
              · exact ⟨q, List.mem_cons_self q ps, rfl⟩
              · obtain ⟨p, hp, hn⟩ := ih rest hrec kv hkv'
                exact ⟨p, List.mem_cons_of_mem q hp, hn⟩
          | error m => rw [hrec] at hok; cases hok
      | none =>
          rw [hq] at hok
          by_cases hr : q.required = true
          · rw [if_pos hr] at hok; cases hok
          · rw [if_neg hr] at hok
            by_cases hdef : q.default = Value.vnone
            · rw [if_neg (by simp [hdef])] at hok
              obtain ⟨p, hp, hn⟩ := ih v hok kv hkv
              exact ⟨p, List.mem_cons_of_mem q hp, hn⟩
            · rw [if_pos (by simp [hdef])] at hok
              cases hrec : validate_parameters ps kwargs with
              | ok rest =>
                  rw [hrec] at hok
                  cases hok
                  rcases List.mem_cons.mp hkv with rfl | hkv'
                  · exact ⟨q, List.mem_cons_self q ps, rfl⟩
                  · obtain ⟨p, hp, hn⟩ := ih rest hrec kv hkv'
                    exact ⟨p, List.mem_cons_of_mem q hp, hn⟩
              | error m => rw [hrec] at hok; cases hok

/-- A missing optional parameter with a non-`None` declared default is
forwarded with that default. -/
theorem validate_ok_default_mem (params : List ToolParameter)
    (kwargs : List (String × Value)) (v : List (String × Value))
    (hok : validate_parameters params kwargs = .ok v) :
    ∀ p ∈ params, p.required = false → kwargs.lookup p.name = none →
      p.default ≠ Value.vnone → (p.name, p.default) ∈ v := by
  induction params generalizing v with
  | nil =>
      intro p hp
      exact absurd hp (List.not_mem_nil p)
  | cons q ps ih =>
      intro p hp hreq hlook hdef
      simp only [validate_parameters] at hok
      rcases List.mem_cons.mp hp with rfl | hp'
      · rw [hlook, if_neg (by simp [hreq]), if_pos (by simp [hdef])] at hok
        cases hrec : validate_parameters ps kwargs with
        | ok rest =>
            rw [hrec] at hok
            cases hok
            exact List.mem_cons_self _ _
        | error m => rw [hrec] at hok; cases hok
      · cases hq : kwargs.lookup q.name with
        | some w =>
            rw [hq] at hok
            cases hrec : validate_parameters ps kwargs with
            | ok rest =>
                rw [hrec] at hok
                cases hok
                exact List.mem_cons_of_mem _ (ih rest hrec p hp' hreq hlook hdef)
            | error m => rw [hrec] at hok; cases hok
        | none =>
            rw [hq] at hok
            by_cases hr : q.required = true
            · rw [if_pos hr] at hok; cases hok
            · rw [if_neg hr] at hok
              by_cases hqd : q.default = Value.vnone
              · rw [if_neg (by simp [hqd])] at hok
                exact ih v hok p hp' hreq hlook hdef
              · rw [if_pos (by simp [hqd])] at hok
                cases hrec : validate_parameters ps kwargs with
                | ok rest =>
                    rw [hrec] at hok
                    cases hok
                    exact List.mem_cons_of_mem _ (ih rest hrec p hp' hreq hlook hdef)
                | error m => rw [hrec] at hok; cases hok

/-- The "Tool execution failed: " prefix keeps every converted error
message non-empty. -/
theorem tool_failed_prefix_ne_empty (m : String) :
    ("Tool execution failed: " ++ m) ≠ "" := by
  intro h
  have h2 : ("Tool execution failed: " ++ m).data = ([] : List Char) := by
    rw [h]
  rw [String.data_append] at h2
  exact absurd (List.append_eq_nil.mp h2).1 (by decide)

/-- Appending arguments whose names miss every declared parameter leaves
validation unchanged. -/
theorem validate_append_extra (params : List ToolParameter)
    (kwargs extra : List (String × Value))
    (h : ∀ p ∈ params, extra.lookup p.name = none) :
    validate_parameters params (kwargs ++ extra)
      = validate_parameters params kwargs := by
  induction params with
  | nil => rfl
  | cons q ps ih =>
      have hq : (kwargs ++ extra).lookup q.name = kwargs.lookup q.name := by
        rw [lookup_append_or, h q (List.mem_cons_self q ps)]
        cases kwargs.lookup q.name <;> rfl
      have hps := ih fun p hp => h p (List.mem_cons_of_mem q hp)
      simp only [validate_parameters, hq, hps]

/-- C2: tool execution is a total function into `ToolResult`.  An
unregistered name yields the "tool not found" failure; a missing required
parameter yields a failure result with a non-empty error rather than a
crash; a missing optional parameter with a non-`None` declared default is
forwarded with that default; and an exception raised by the tool body is
converted into a failure result with a non-empty descriptive error. -/
theorem execute_tool_contract (reg : ToolRegistry) (name : String)
    (kwargs : List (String × Value)) :
    (get_tool reg name = none →
      execute_tool reg name kwargs
        = { success := false, error := some ("Tool '" ++ name ++ "' not found") })
    ∧ (∀ tool, get_tool reg name = some tool →
        (∃ p ∈ tool.parameters, p.required = true ∧ kwargs.lookup p.name = none) →
        (execute_tool reg name kwargs).success = false
          ∧ ∃ e, (execute_tool reg name kwargs).error = some e ∧ e ≠ "")
    ∧ (∀ tool v, get_tool reg name = some tool →
        validate_parameters tool.parameters kwargs = .ok v →
        ∀ p ∈ tool.parameters, p.required = false → kwargs.lookup p.name = none →
          p.default ≠ Value.vnone → (p.name, p.default) ∈ v)
    ∧ (∀ tool v m, get_tool reg name = some tool →
        validate_parameters tool.parameters kwargs = .ok v →
        tool.run v = .exn m →
        execute_tool reg name kwargs
          = { success := false, error := some ("Tool execution failed: " ++ m) }
          ∧ ("Tool execution failed: " ++ m) ≠ "") := by
  refine ⟨?_, ?_, ?_, ?_⟩
  · intro h
    simp [execute_tool, h]
  · intro tool hg hmiss
    obtain ⟨m, hm⟩ := validate_error_of_missing_required tool.parameters kwargs hmiss
    have hexec : execute_tool reg name kwargs
        = { success := false, error := some ("Tool execution failed: " ++ m) } := by
      simp [execute_tool, hg, hm]
    rw [hexec]
    exact ⟨rfl, "Tool execution failed: " ++ m, rfl, tool_failed_prefix_ne_empty m⟩
  · intro tool v hg hok
    exact validate_ok_default_mem tool.parameters kwargs v hok
  · intro tool v m hg hok hrun
    refine ⟨?_, tool_failed_prefix_ne_empty m⟩
    simp [execute_tool, hg, hok, hrun]

/-- C2 witness: the three failure shapes and the default application at
concrete inputs of the fixture registry. -/
theorem execute_tool_contract_witness :
    execute_tool reg0 "ghost" []
        = { success := false, error := some "Tool 'ghost' not found" }
      ∧ (execute_tool reg0 "echo" []).success = false
      ∧ execute_tool reg0 "boomer" []
          = { success := false, error := some "Tool execution failed: kaboom" } := by
  have h := execute_tool_contract reg0 "ghost" []
  have h1 := h.1 rfl
  have h2 := (execute_tool_contract reg0 "echo" []).2.1 echo_tool rfl
    ⟨{ name := "x", type := "string", description := "Parameter x"
       required := true, default := .vnone, enum_values := none },
      by decide, rfl, rfl⟩
  have h3 := (execute_tool_contract reg0 "boomer" []).2.2.2 raising_tool [] "kaboom"
    rfl rfl rfl
  exact ⟨h1, h2.1, h3.1⟩

/-- C10: arguments whose names match no declared parameter of the resolved
tool are silently dropped — executing with them appended is
indistinguishable from executing without them (no validation failure, no
forwarding), and every binding forwarded to a tool body is named after a
declared parameter. -/
theorem undeclared_arguments_dropped (reg : ToolRegistry) (name : String)
    (kwargs extra : List (String × Value))
    (h : ∀ kv ∈ extra, ∀ tool, get_tool reg name = some tool →
          ∀ p ∈ tool.parameters, kv.1 ≠ p.name) :
    execute_tool reg name (kwargs ++ extra) = execute_tool reg name kwargs
    ∧ (∀ tool v, get_tool reg name = some tool →
        validate_parameters tool.parameters kwargs = .ok v →
        ∀ kv ∈ v, ∃ p ∈ tool.parameters, kv.1 = p.name) := by
  constructor
  · cases hg : get_tool reg name with
    | none => simp [execute_tool, hg]
    | some tool =>
        have hex : ∀ p ∈ tool.parameters, extra.lookup p.name = none := by
          intro p hp
          exact lookup_eq_none_of_no_key extra p.name
            fun kv hkv => fun he => (h kv hkv tool hg p hp) he.symm
        simp only [execute_tool, hg]
        rw [validate_append_extra tool.parameters kwargs extra hex]
  · intro tool v hg hok
    exact validate_ok_keys tool.parameters kwargs v hok

/-- C10 witness: an undeclared "junk" argument neither fails validation
nor reaches the echo tool. -/
theorem undeclared_arguments_dropped_witness :
    execute_tool reg0 "echo" ([("x", .vstr "a")] ++ [("junk", .vint 1)])
      = execute_tool reg0 "echo" [("x", .vstr "a")] := by
  have h := undeclared_arguments_dropped reg0 "echo"
    [("x", .vstr "a")] [("junk", .vint 1)] ?_
  · exact h.1
  · intro kv hkv tool hg p hp
    have hkv1 : kv = ("junk", Value.vint 1) := by
      rcases List.mem_cons.mp hkv with rfl | hcon
      · rfl
      · exact absurd hcon (List.not_mem_nil kv)
    have htool : tool = echo_tool := by
      have : some tool = some echo_tool := hg.symm.trans rfl
      exact Option.some.inj this
    subst htool
    rw [hkv1]
    revert hp
    rw [show echo_tool.parameters = extract_parameters echo_tool.sig from rfl]
    intro hp
    rcases List.mem_cons.mp hp with rfl | hp'
    · decide
    · rcases List.mem_cons.mp hp' with rfl | hp''
      · decide
      · exact absurd hp'' (List.not_mem_nil p)

/-- C5: the history of a session is the most recent `limit` turns of that
session rendered oldest-first as user/assistant pairs in non-decreasing
timestamp order, prefixed with exactly one synthesized system-prompt
message when requested and with none otherwise. -/
theorem history_ordered (db : MemoryDb) (sid : String) (limit : Nat) :
    get_conversation_history db sid limit true
        = { role := "system", content := get_system_prompt } ::
            get_conversation_history db sid limit false
    ∧ (∀ m ∈ get_conversation_history db sid limit false,
        m.role = "user" ∨ m.role = "assistant")
    ∧ ∃ rs dropped : List ConversationTurn,
        get_conversation_history db sid limit false
            = rs.flatMap (fun r =>
                [{ role := "user", content := r.user_message },
                 { role := "assistant", content := r.assistant_message }])
        ∧ List.Pairwise (fun a b => a.timestamp ≤ b.timestamp) rs
        ∧ rs.length = min limit (session_rows db sid).length
        ∧ (rs ++ dropped).Perm (session_rows db sid)
        ∧ (∀ d ∈ dropped, ∀ r ∈ rs, d.timestamp ≤ r.timestamp) := by
  have hsorted : List.Pairwise tsDesc
      (List.insertionSort tsDesc (session_rows db sid)) :=
    List.sorted_insertionSort tsDesc (session_rows db sid)
  have hperm : (List.insertionSort tsDesc (session_rows db sid)).Perm
      (session_rows db sid) :=
    List.perm_insertionSort tsDesc (session_rows db sid)
  refine ⟨rfl, ?_, (recent_rows db sid limit).reverse,
    (List.insertionSort tsDesc (session_rows db sid)).drop limit, rfl, ?_, ?_, ?_, ?_⟩
  · intro m hm
    simp only [get_conversation_history, if_neg Bool.false_ne_true, List.nil_append] at hm
    obtain ⟨r, _, hmr⟩ := List.mem_flatMap.mp hm
    rcases List.mem_cons.mp hmr with rfl | hmr'
    · exact Or.inl rfl
    · rcases List.mem_cons.mp hmr' with rfl | hmr''
      · exact Or.inr rfl
      · exact absurd hmr'' (List.not_mem_nil m)
  · have htake : List.Pairwise tsDesc (recent_rows db sid limit) :=
      List.Pairwise.sublist (List.take_sublist limit _) hsorted
    rw [List.pairwise_reverse]
    exact htake
  · rw [List.length_reverse]
    unfold recent_rows
    rw [List.length_take, hperm.length_eq]
  · unfold recent_rows
    have h1 := (List.reverse_perm
        ((List.insertionSort tsDesc (session_rows db sid)).take limit)).append_right
      ((List.insertionSort tsDesc (session_rows db sid)).drop limit)
    rw [List.take_append_drop] at h1
    exact h1.trans hperm
  · intro d hd r hr
    have hsplit : List.Pairwise tsDesc
        (recent_rows db sid limit
          ++ (List.insertionSort tsDesc (session_rows db sid)).drop limit) := by
      unfold recent_rows
      rw [List.take_append_drop]
      exact hsorted
    have hcross := (List.pairwise_append.mp hsplit).2.2
    exact hcross r (List.mem_reverse.mp hr) d hd

/-- The turn with a strictly maximal timestamp comes first under
`ORDER BY timestamp DESC`. -/
theorem sort_head_of_strict_newest (l : List ConversationTurn)
    (t : ConversationTurn) (ht : t ∈ l)
    (hmax : ∀ r ∈ l, r = t ∨ r.timestamp < t.timestamp) :
    ∃ rest, List.insertionSort tsDesc l = t :: rest := by
  have hperm := List.perm_insertionSort tsDesc l
  have hsorted : List.Pairwise tsDesc (List.insertionSort tsDesc l) :=
    List.sorted_insertionSort tsDesc l
  have htmem : t ∈ List.insertionSort tsDesc l := hperm.mem_iff.mpr ht
  cases hs : List.insertionSort tsDesc l with
  | nil =>
      rw [hs] at htmem
      exact absurd htmem (List.not_mem_nil t)
  | cons h0 rest =>
      refine ⟨rest, ?_⟩
      rw [hs] at htmem hsorted hperm
      have h0mem : h0 ∈ l := hperm.mem_iff.mp (List.mem_cons_self h0 rest)
      rcases List.mem_cons.mp htmem with rfl | htail
      · rfl
      · have hle : t.timestamp ≤ h0.timestamp :=
          (List.pairwise_cons.mp hsorted).1 t htail
        rcases hmax h0 h0mem with rfl | hlt
        · rfl
        · exact (Nat.lt_irrefl _ (Nat.lt_of_lt_of_le hlt hle)).elim

/-- C8: a turn saved on top of strictly older rows is found again by a
search whose query is a substring of its stored user or assistant text,
with the same user text, assistant text and ordered tool-name list. -/
theorem search_roundtrip (db : MemoryDb) (t : ConversationTurn) (q : String)
    (limit : Nat)
    (hq : likeMatch q t.user_message = true ∨ likeMatch q t.assistant_message = true)
    (hnew : ∀ r ∈ db, r.timestamp < t.timestamp)
    (hlim : 0 < limit) :
    ∃ u ∈ search_conversations (save_turn db t) q none limit,
      u.user_message = t.user_message ∧ u.assistant_message = t.assistant_message
        ∧ u.tools_used = t.tools_used := by
  have hmatch : search_match q none t = true := by
    rcases hq with h | h <;> simp [search_match, h]
  have hfil : t ∈ (save_turn db t).filter (search_match q none) :=
    List.mem_filter.mpr
      ⟨List.mem_append_right db (List.mem_cons_self t []), hmatch⟩
  have hmax : ∀ r ∈ (save_turn db t).filter (search_match q none),
      r = t ∨ r.timestamp < t.timestamp := by
    intro r hr
    rcases List.mem_append.mp (List.mem_filter.mp hr).1 with hdb | hone
    · exact Or.inr (hnew r hdb)
    · rcases List.mem_cons.mp hone with rfl | hcon
      · exact Or.inl rfl
      · exact absurd hcon (List.not_mem_nil r)
  obtain ⟨rest, hrest⟩ :=
    sort_head_of_strict_newest ((save_turn db t).filter (search_match q none)) t hfil hmax
  refine ⟨t, ?_, rfl, rfl, rfl⟩
  unfold search_conversations
  rw [hrest]
  cases limit with
  | zero => exact absurd hlim (Nat.lt_irrefl 0)
  | succ n =>
      rw [List.take_succ_cons]
      exact List.mem_cons_self t _

/-- C8 witness: the sample turn saved into an empty store is recovered by
searching for the substring "lo wor" of its user text. -/
theorem search_roundtrip_witness :
    ∃ u ∈ search_conversations (save_turn [] sample_turn) "lo wor" none 10,
      u.user_message = sample_turn.user_message
        ∧ u.assistant_message = sample_turn.assistant_message
        ∧ u.tools_used = sample_turn.tools_used := by
  exact search_roundtrip [] sample_turn "lo wor" 10
    (Or.inl (by decide))
    (fun r hr => absurd hr (List.not_mem_nil r))
    (by decide)

/-- The buffered loop makes at most `iteration + rem` completion calls. -/
theorem runLoop_iterations_le (P : Provider) (reg : ToolRegistry) :
    ∀ rem msgs tools iteration,
      (runLoop P reg msgs tools iteration rem).2.2 ≤ iteration + rem := by
  intro rem
  induction rem with
  | zero =>
      intro msgs tools iteration
      simp [runLoop]
  | succ r ih =>
      intro msgs tools iteration
      cases hout : P msgs (functionsArg reg) with
      | text s => simp only [runLoop, hout]; omega
      | exn m => simp only [runLoop, hout]; omega
      | call fc =>
          simp only [runLoop, hout]
          exact le_trans
            (ih (msgs ++ [tool_call_message fc,
              tool_result_message fc (execute_tool reg fc.name fc.arguments)])
              (tools ++ [fc.name]) (iteration + 1))
            (by omega)

/-- Under a provider that always requests a tool the loop consumes its
whole budget, recording the requested names in order and ending in the
`while…else` apology. -/
theorem runLoop_always_call (P : Provider) (reg : ToolRegistry)
    (hP : ∀ ms fs, ∃ fc, P ms fs = .call fc) :
    ∀ rem msgs tools iteration,
      runLoop P reg msgs tools iteration rem
        = (.answer exhaustion_message,
           tools ++ call_names P reg msgs rem, iteration + rem) := by
  intro rem
  induction rem with
  | zero =>
      intro msgs tools iteration
      simp [runLoop, call_names]
  | succ r ih =>
      intro msgs tools iteration
      obtain ⟨fc, hfc⟩ := hP msgs (functionsArg reg)
      simp only [runLoop, call_names, hfc]
      rw [ih]
      simp only [Prod.mk.injEq, List.append_assoc, List.singleton_append]
      exact ⟨by trivial, by trivial, by omega⟩

/-- Under an always-calling provider, five names are recorded. -/
theorem call_names_length (P : Provider) (reg : ToolRegistry)
    (hP : ∀ ms fs, ∃ fc, P ms fs = .call fc) :
    ∀ rem msgs, (call_names P reg msgs rem).length = rem := by
  intro rem
  induction rem with
  | zero => intro msgs; rfl
  | succ r ih =>
      intro msgs
      obtain ⟨fc, hfc⟩ := hP msgs (functionsArg reg)
      simp [call_names, hfc, ih]

/-- C1: a buffered pass makes at most 5 completion calls; under a provider
that always requests a tool it stops at the cap with the fixed apology and
persists exactly one turn recording the five requested tool names in order
and an iteration count of 5. -/
theorem buffered_loop_cap (P : Provider) (reg : ToolRegistry) (db : MemoryDb)
    (session_id msg : String) (ts : Nat)
    (hP : ∀ ms fs, ∃ fc, P ms fs = .call fc) :
    (runLoop P reg (seeded_history db session_id msg) [] 0 max_iterations).2.2
        ≤ max_iterations
    ∧ (call_names P reg (seeded_history db session_id msg) max_iterations).length
        = max_iterations
    ∧ process_message_sync P reg db session_id msg ts
        = (exhaustion_message,
           db ++ [{ session_id := session_id, timestamp := ts
                    user_message := msg
                    assistant_message := exhaustion_message
                    tools_used := call_names P reg
                        (seeded_history db session_id msg) max_iterations
                    metadata := [("iterations", Value.vint 5)] }]) := by
  refine ⟨?_, call_names_length P reg hP max_iterations _, ?_⟩
  · simpa using
      runLoop_iterations_le P reg max_iterations (seeded_history db session_id msg) [] 0
  · unfold process_message_sync generate_response
    rw [runLoop_always_call P reg hP max_iterations (seeded_history db session_id msg) [] 0]
    simp [save_turn, max_iterations]

/-- C1 witness: the always-calling stub on the fixture registry stops with
the apology after recording five no-op invocations. -/
theorem buffered_loop_cap_witness :
    process_message_sync alwaysCallProvider reg0 [] "s" "hi" 0
      = (exhaustion_message,
         [{ session_id := "s", timestamp := 0, user_message := "hi"
            assistant_message := exhaustion_message
            tools_used := ["noop", "noop", "noop", "noop", "noop"]
            metadata := [("iterations", Value.vint 5)] }]) := by
  have h := (buffered_loop_cap alwaysCallProvider reg0 [] "s" "hi" 0
    (fun _ _ => ⟨_, rfl⟩)).2.2
  rw [h]
  rfl

/-- C3 counterexample: a provider exception is caught and converted into
the error answer, but no `ConversationTurn` is persisted — the store comes
back unchanged (empty), in both buffered and streaming mode. -/
theorem error_pass_no_persist_cex :
    process_message_sync raisingProvider reg0 [] "s" "hi" 0
        = ("I encountered an error: boom", [])
      ∧ process_message_stream raisingProvider helloStream reg0 [] "s" "hi" 0
        = (["I encountered an error: boom"], []) :=
  ⟨rfl, rfl⟩

/-- C3 amended: a pass always completes with some answer text — a caught
exception becomes the final answer "I encountered an error: <m>"
(buffered) or that same text as a final fragment (streaming) — but a
`ConversationTurn` is persisted only when no exception escaped the loop:
on the error path the store is left untouched. -/
theorem pass_boundary (P : Provider) (S : StreamProvider) (reg : ToolRegistry)
    (db : MemoryDb) (session_id msg : String) (ts : Nat) :
    ((∃ m tools iteration,
        runLoop P reg (seeded_history db session_id msg) [] 0 max_iterations
            = (.errored m, tools, iteration)
          ∧ process_message_sync P reg db session_id msg ts
            = ("I encountered an error: " ++ m, db))
      ∨ (∃ s tools iteration,
        runLoop P reg (seeded_history db session_id msg) [] 0 max_iterations
            = (.answer s, tools, iteration)
          ∧ process_message_sync P reg db session_id msg ts
            = (s, db ++ [{ session_id := session_id, timestamp := ts
                           user_message := msg, assistant_message := s
                           tools_used := tools
                           metadata := [("iterations", Value.vint iteration)] }])))
    ∧ ((∃ y m,
        streamLoop P S reg (seeded_history db session_id msg) [] 0 max_iterations
            = .errored y m
          ∧ process_message_stream P S reg db session_id msg ts
            = (y ++ ["I encountered an error: " ++ m], db))
      ∨ (∃ y parts tools iteration,
        streamLoop P S reg (seeded_history db session_id msg) [] 0 max_iterations
            = .done y parts tools iteration
          ∧ process_message_stream P S reg db session_id msg ts
            = (y, db ++ [{ session_id := session_id, timestamp := ts
                           user_message := msg
                           assistant_message := String.join parts
                           tools_used := tools
                           metadata := [("iterations", Value.vint iteration),
                                        ("streamed", Value.vbool true)] }]))) := by
  constructor
  · rcases hr : runLoop P reg (seeded_history db session_id msg) [] 0 max_iterations
      with ⟨out, tools, iteration⟩
    cases out with
    | errored m =>
        left
        refine ⟨m, tools, iteration, rfl, ?_⟩
        unfold process_message_sync generate_response
        rw [hr]
    | answer s =>
        right
        refine ⟨s, tools, iteration, rfl, ?_⟩
        unfold process_message_sync generate_response
        rw [hr]
        rfl
  · cases hs : streamLoop P S reg (seeded_history db session_id msg) [] 0 max_iterations with
    | errored y m =>
        left
        refine ⟨y, m, rfl, ?_⟩
        unfold process_message_stream
        rw [hs]
    | done y parts tools iteration =>
        right
        refine ⟨y, parts, tools, iteration, rfl, ?_⟩
        unfold process_message_stream
        rw [hs]
        rfl

/-- Under an always-calling provider the streaming loop yields exactly the
notification fragments, collects no answer fragment, and consumes the
whole budget. -/
theorem streamLoop_always_call (P : Provider) (S : StreamProvider)
    (reg : ToolRegistry) (hP : ∀ ms fs, ∃ fc, P ms fs = .call fc) :
    ∀ rem msgs tools iteration,
      streamLoop P S reg msgs tools iteration rem
        = .done (stream_notices P reg msgs rem) []
            (tools ++ call_names P reg msgs rem) (iteration + rem) := by
  intro rem
  induction rem with
  | zero =>
      intro msgs tools iteration
      simp [streamLoop, stream_notices, call_names]
  | succ r ih =>
      intro msgs tools iteration
      obtain ⟨fc, hfc⟩ := hP msgs (functionsArg reg)
      simp only [streamLoop, stream_notices, call_names, hfc]
      rw [ih]
      simp only [StreamOutcome.done.injEq, List.append_assoc, List.singleton_append]
      exact ⟨by trivial, by trivial, by trivial, by omega⟩

/-- C4 counterexample: streaming with an always-calling provider exhausts
the cap, yet the persisted `assistant_message` is the empty string — not
the buffered apology — and the caller does receive streamed fragments
during the tool-request iterations. -/
theorem streaming_divergence_cex :
    process_message_stream alwaysCallProvider helloStream reg0 [] "s" "hi" 0
      = (["\n🔧 Using tool: noop\n", "✅ Tool completed successfully\n\n",
          "\n🔧 Using tool: noop\n", "✅ Tool completed successfully\n\n",
          "\n🔧 Using tool: noop\n", "✅ Tool completed successfully\n\n",
          "\n🔧 Using tool: noop\n", "✅ Tool completed successfully\n\n",
          "\n🔧 Using tool: noop\n", "✅ Tool completed successfully\n\n"],
         [{ session_id := "s", timestamp := 0, user_message := "hi"
            assistant_message := ""
            tools_used := ["noop", "noop", "noop", "noop", "noop"]
            metadata := [("iterations", Value.vint 5),
                         ("streamed", Value.vbool true)] }])
    ∧ ("" : String) ≠ exhaustion_message :=
  ⟨rfl, by decide⟩

/-- C4 amended: streaming runs the same capped loop, but each tool-request
iteration yields two progress fragments that are excluded from the
persisted message; the final answer is forwarded fragment-by-fragment with
the persisted `assistant_message` equal to the concatenation of the
final-answer fragments alone; and cap exhaustion persists an empty
`assistant_message` with no apology fragment. -/
theorem streaming_amended (P : Provider) (S : StreamProvider)
    (reg : ToolRegistry) (db : MemoryDb) (session_id msg : String) (ts : Nat) :
    ((∀ ms fs, ∃ fc, P ms fs = .call fc) →
      process_message_stream P S reg db session_id msg ts
        = (stream_notices P reg (seeded_history db session_id msg) max_iterations,
           db ++ [{ session_id := session_id, timestamp := ts
                    user_message := msg, assistant_message := ""
                    tools_used := call_names P reg
                        (seeded_history db session_id msg) max_iterations
                    metadata := [("iterations", Value.vint 5),
                                 ("streamed", Value.vbool true)] }]))
    ∧ ((∃ s, P (seeded_history db session_id msg) (functionsArg reg) = .text s) →
      process_message_stream P S reg db session_id msg ts
        = (S (seeded_history db session_id msg),
           db ++ [{ session_id := session_id, timestamp := ts
                    user_message := msg
                    assistant_message :=
                      String.join (S (seeded_history db session_id msg))
                    tools_used := []
                    metadata := [("iterations", Value.vint 1),
                                 ("streamed", Value.vbool true)] }])) := by
  constructor
  · intro hP
    unfold process_message_stream
    rw [streamLoop_always_call P S reg hP max_iterations
      (seeded_history db session_id msg) [] 0]
    simp [save_turn, max_iterations, String.join]
  · intro ⟨s, hs⟩
    unfold process_message_stream
    have h5 : max_iterations = 4 + 1 := rfl
    rw [h5]
    simp only [streamLoop, hs]
    simp [save_turn]

/-- C4 witness (spec scenario C): a text-answering provider streams
`["Hel", "lo"]` and persists `assistant_message = "Hello"`. -/
theorem streaming_amended_witness :
    process_message_stream textProvider helloStream reg0 [] "s" "hi" 0
      = (["Hel", "lo"],
         [{ session_id := "s", timestamp := 0, user_message := "hi"
            assistant_message := "Hello"
            tools_used := []
            metadata := [("iterations", Value.vint 1),
                         ("streamed", Value.vbool true)] }]) := by
  have h := (streaming_amended textProvider helloStream reg0 [] "s" "hi" 0).2
    ⟨"All done.", rfl⟩
  rw [h]
  rfl

end LlmAgent
